import Mathlib

/-
Verification of the InstapaperGDocs repository (instapaper-gdocs.py, the
reorganize tool, and instapaper-gdoc-download.py, the download tool).

The Python code is shallowly embedded: Python strings become `List Char`,
JSON dictionary lookups with `.get` become `Option`-valued record fields,
caught exceptions become `Option`/sentinel results, and uncaught exceptions
become `Except.error` results that propagate.  Remote HTTP services are
passed in as explicit environment functions.
-/

namespace InstapaperGDocs

/-- Python strings are modelled as lists of characters. -/
abbrev Str := List Char

/-- The separator string "/d/" used by the identifier extraction expression
`doc_url.split('/d/')[1].split('/')[0]` in both scripts. -/
def dSep : Str := ['/', 'd', '/']

/-- Locate the first occurrence of the (non-empty) separator `sep` inside `s`,
scanning left to right, and return the text before it together with the text
after it.  `none` means `sep` does not occur in `s`.  This is the elementary
step of Python's `s.split(sep)`: the full split is the before-part followed by
splitting the after-part again, which matches Python's non-overlapping
left-to-right scan. -/
def splitFirst (sep : Str) : Str → Option (Str × Str)
  | [] => none
  | c :: cs =>
    if sep.isPrefixOf (c :: cs) then
      some ([], (c :: cs).drop sep.length)
    else
      match splitFirst sep cs with
      | some (p, q) => some (c :: p, q)
      | none => none

/-- The identifier extractor `doc_url.split('/d/')[1].split('/')[0]`
(instapaper-gdocs.py line 62, instapaper-gdoc-download.py lines 77 and 109).
Element `[1]` of the full split is the chunk between the first occurrence of
"/d/" and the following occurrence (or the end of the string), and
`.split('/')[0]` of a string is its longest prefix free of slashes, so the
whole expression is embedded directly in those terms.  `none` models the
uncaught IndexError raised by `[1]` when "/d/" does not occur in the url. -/
def extract_doc_id (url : Str) : Option Str :=
  match splitFirst dSep url with
  | none => none
  | some (_, post) =>
    match splitFirst dSep post with
    | none => some (post.takeWhile (fun c => c ≠ '/'))
    | some (mid, _) => some (mid.takeWhile (fun c => c ≠ '/'))

/-- Python's substring test `needle in hay` for strings. -/
def containsSub (needle hay : Str) : Bool :=
  (splitFirst needle hay).isSome

theorem splitFirst_cons_pos (sep : Str) (c : Char) (cs : Str) (h : sep <+: c :: cs) :
    splitFirst sep (c :: cs) = some ([], (c :: cs).drop sep.length) := by
  have hb : sep.isPrefixOf (c :: cs) = true := List.isPrefixOf_iff_prefix.mpr h
  simp [splitFirst, hb]

theorem splitFirst_cons_neg (sep : Str) (c : Char) (cs : Str) (h : ¬ sep <+: c :: cs) :
    splitFirst sep (c :: cs) =
      match splitFirst sep cs with
      | some (p, q) => some (c :: p, q)
      | none => none := by
  have hb : sep.isPrefixOf (c :: cs) = false := by
    rw [Bool.eq_false_iff]
    intro ht
    exact h (List.isPrefixOf_iff_prefix.mp ht)
  simp [splitFirst, hb]

/-- If `sep` occurs nowhere strictly inside the prefix `p`, then `splitFirst`
finds exactly the explicitly displayed occurrence. -/
theorem splitFirst_first_occurrence (sep : Str) (hsep : sep ≠ []) :
    ∀ p r : Str, (∀ j, j < p.length → ¬ sep <+: (p ++ sep ++ r).drop j) →
      splitFirst sep (p ++ sep ++ r) = some (p, r) := by
  intro p
  induction p with
  | nil =>
    intro r _
    obtain ⟨s0, stl, rfl⟩ : ∃ s0 stl, sep = s0 :: stl := by
      cases sep with
      | nil => exact absurd rfl hsep
      | cons s0 stl => exact ⟨s0, stl, rfl⟩
    have hpre : (s0 :: stl) <+: (s0 :: stl) ++ r := List.prefix_append _ _
    simp only [List.nil_append, List.cons_append] at *
    rw [splitFirst_cons_pos _ _ _ hpre]
    simp [List.drop_left]
  | cons c p ih =>
    intro r hfirst
    have h0 : ¬ sep <+: (c :: p ++ sep ++ r) := by
      have := hfirst 0 (by simp)
      simpa using this
    have hshift : ∀ j, j < p.length → ¬ sep <+: (p ++ sep ++ r).drop j := by
      intro j hj
      have := hfirst (j + 1) (by simpa using Nat.succ_lt_succ hj)
      simpa [List.cons_append] using this
    have hrec := ih r hshift
    have hcons : (c :: p) ++ sep ++ r = c :: (p ++ sep ++ r) := by
      simp [List.cons_append]
    rw [hcons, splitFirst_cons_neg _ _ _ (by simpa [List.cons_append] using h0), hrec]

/-- Soundness of `splitFirst`: a successful split reassembles to the input. -/
theorem eq_append_of_splitFirst (sep : Str) :
    ∀ s p q : Str, splitFirst sep s = some (p, q) → s = p ++ sep ++ q := by
  intro s
  induction s with
  | nil =>
    intro p q h
    simp [splitFirst] at h
  | cons c cs ih =>
    intro p q h
    by_cases hb : sep <+: c :: cs
    · rw [splitFirst_cons_pos _ _ _ hb] at h
      simp only [Option.some.injEq, Prod.mk.injEq] at h
      obtain ⟨hp, hq⟩ := h
      subst hp
      subst hq
      have htake := List.prefix_iff_eq_take.mp hb
      conv_lhs => rw [← List.take_append_drop sep.length (c :: cs)]
      rw [← htake]
      simp
    · rw [splitFirst_cons_neg _ _ _ hb] at h
      cases hsp : splitFirst sep cs with
      | none => rw [hsp] at h; simp at h
      | some pq =>
        obtain ⟨pp, qq⟩ := pq
        rw [hsp] at h
        simp only [Option.some.injEq, Prod.mk.injEq] at h
        obtain ⟨hp, hq⟩ := h
        subst hp
        subst hq
        have := ih pp qq hsp
        simp [this, List.cons_append]

/-- Completeness of `splitFirst`: it returns `none` exactly when the
separator does not occur as a substring. -/
theorem splitFirst_eq_none_iff (sep : Str) (hsep : sep ≠ []) :
    ∀ s : Str, splitFirst sep s = none ↔ ¬ sep <:+: s := by
  intro s
  induction s with
  | nil => simp [splitFirst, hsep]
  | cons c cs ih =>
    by_cases hb : sep <+: c :: cs
    · rw [splitFirst_cons_pos _ _ _ hb]
      simp [List.infix_cons_iff, hb]
    · rw [splitFirst_cons_neg _ _ _ hb]
      cases hsp : splitFirst sep cs with
      | none =>
        have := (ih.mp hsp)
        simp [List.infix_cons_iff, hb, this]
      | some pq =>
        obtain ⟨pp, qq⟩ := pq
        have hin : sep <:+: cs := by
          by_contra hcon
          rw [← ih] at hcon
          rw [hcon] at hsp
          exact Option.noConfusion hsp
        simp [List.infix_cons_iff, hin]

/-- Dropping everything from the first failing element on does not change a
`takeWhile`. -/
theorem takeWhile_append_of_neg {α : Type} (p : α → Bool) (a b : List α) (c : α)
    (h : p c = false) : (a ++ c :: b).takeWhile p = a.takeWhile p := by
  induction a with
  | nil => simp [List.takeWhile, h]
  | cons x xs ih =>
    cases hx : p x with
    | true => simp [List.takeWhile, hx, ih]
    | false => simp [List.takeWhile, hx]

/-- The extractor fails exactly on urls with no "/d/" substring. -/
theorem extract_doc_id_eq_none_iff (url : Str) :
    extract_doc_id url = none ↔ ¬ dSep <:+: url := by
  unfold extract_doc_id
  cases hsp : splitFirst dSep url with
  | none =>
    simp [(splitFirst_eq_none_iff dSep (by decide) url).mp hsp]
  | some pq =>
    obtain ⟨pp, qq⟩ := pq
    have hurl := eq_append_of_splitFirst dSep url pp qq hsp
    have hin : dSep <:+: url := ⟨pp, qq, hurl.symm⟩
    cases hsp2 : splitFirst dSep qq with
    | none => simp [hsp2, hin]
    | some pq2 =>
      obtain ⟨mid, rest2⟩ := pq2
      simp [hsp2, hin]

/-- One entry of the "owners" array in a Drive file-metadata response; the
displayName key may be absent. -/
structure OwnerRec where
  displayName : Option Str
  deriving DecidableEq

/-- A Drive file-metadata response body, as consumed through
`file_metadata.get('name')`, `.get('owners', [{}])` and
`.get('modifiedTime', 'Unknown')`: every key may be absent. -/
structure FileMetadata where
  name : Option Str
  owners : Option (List OwnerRec)
  modifiedTime : Option Str
  deriving DecidableEq

/-- The dictionary returned by fetch_google_doc_info on success.  The "title"
value is `file_metadata.get('name')`, which can be Python None, hence an
`Option`; the other two values always receive a string. -/
structure DocInfo where
  title : Option Str
  owner : Str
  modified_date : Str
  deriving DecidableEq

/-- The default string "Unknown" used for a missing owner display name or a
missing modification time. -/
def unknownStr : Str := "Unknown".toList

/-- The field extraction inside the try block of fetch_google_doc_info
(instapaper-gdocs.py lines 73-78, instapaper-gdoc-download.py lines 121-126):
`owner = file_metadata.get('owners', [{}])[0].get('displayName', 'Unknown')`
and `modified_time = file_metadata.get('modifiedTime', 'Unknown')`.  When the
"owners" key is present but holds an empty array, the `[0]` subscript raises
IndexError inside the try block, so the function returns None: that case is
modelled as `none`. -/
def extract_doc_info (m : FileMetadata) : Option DocInfo :=
  match m.owners.getD [⟨none⟩] with
  | [] => none
  | o :: _ =>
    some { title := m.name
           owner := o.displayName.getD unknownStr
           modified_date := m.modifiedTime.getD unknownStr }

/-- Exceptions that escape the modelled code uncaught. -/
inductive PyErr where
  | indexError
  | typeError
  deriving DecidableEq

/-- The Drive metadata service: `files().get(fileId=doc_id, ...).execute()`,
returning either a metadata body or raising an API error (the error payload is
the message text). -/
abbrev DriveEnv := Str → Except Str FileMetadata

/-- fetch_google_doc_info (instapaper-gdocs.py lines 60-82, and the identical
copy in instapaper-gdoc-download.py lines 107-130): the doc id is extracted
OUTSIDE the try block, so a url without "/d/" raises an uncaught IndexError;
everything after that runs inside the try block, whose except clause prints a
diagnostic and returns None, modelled as `Except.ok none`. -/
def fetch_google_doc_info (drive : DriveEnv) (doc_url : Str) :
    Except PyErr (Option DocInfo) :=
  match extract_doc_id doc_url with
  | none => Except.error PyErr.indexError
  | some doc_id =>
    Except.ok (match drive doc_id with
      | Except.error _ => none
      | Except.ok m => extract_doc_info m)

/-- C3: for every URL containing "/d/" with a later "/" after it, the
identifier extractor returns exactly the segment between the first "/d/" and
the next "/" after it; for a URL not containing "/d/" it fails (the uncaught
IndexError, modelled as none). -/
theorem C3_identifier_extractor :
    (∀ url pre rest : Str, url = pre ++ dSep ++ rest →
       (∀ j, j < pre.length → ¬ dSep <+: url.drop j) →
       '/' ∈ rest →
       extract_doc_id url = some (rest.takeWhile (fun c => c ≠ '/')))
  ∧ (∀ url : Str, ¬ dSep <:+: url → extract_doc_id url = none) := by
  constructor
  · intro url pre rest hurl hfirst _
    subst hurl
    have h1 := splitFirst_first_occurrence dSep (by decide) pre rest hfirst
    unfold extract_doc_id
    split
    · rename_i heq
      rw [h1] at heq
      exact Option.noConfusion heq
    · rename_i fst post heq
      rw [h1] at heq
      injection heq with h2
      injection h2 with h3 h4
      subst h3
      subst h4
      split
      · rfl
      · rename_i mid q2 heq2
        have hrest : rest = mid ++ dSep ++ q2 :=
          eq_append_of_splitFirst dSep rest mid q2 heq2
        have hform : rest = mid ++ '/' :: ('d' :: '/' :: q2) := by
          rw [hrest]
          simp [dSep, List.append_assoc]
        congr 1
        rw [hform]
        exact (takeWhile_append_of_neg _ mid _ '/' (by decide)).symm
  · intro url h
    exact (extract_doc_id_eq_none_iff url).mpr h

/-- Witness for C3 at concrete inputs: a well-formed document url and a url
without "/d/". -/
theorem C3_identifier_extractor_witness :
    extract_doc_id "https://docs.google.com/document/d/ABC123/edit".toList
        = some "ABC123".toList
  ∧ extract_doc_id "https://example.com/page".toList = none := by
  constructor
  · have h := C3_identifier_extractor.1
      "https://docs.google.com/document/d/ABC123/edit".toList
      "https://docs.google.com/document".toList
      "ABC123/edit".toList (by decide) (by decide) (by decide)
    exact h.trans (by decide)
  · exact C3_identifier_extractor.2 "https://example.com/page".toList (by decide)

/-- A Drive service environment whose responses are irrelevant to the theorem
that uses it. -/
def inert_drive : DriveEnv := fun _ => Except.error "unreached".toList

/-- C10: a document url without "/d/" makes the metadata fetch raise an
uncaught IndexError (it never returns the caught-failure sentinel), because the
id extraction happens before the try block; the sentinel arises only after the
extraction has succeeded. -/
theorem C10_extraction_before_guard (drive : DriveEnv) (doc_url : Str) :
    (¬ dSep <:+: doc_url →
       fetch_google_doc_info drive doc_url = Except.error PyErr.indexError)
  ∧ (∀ res : Option DocInfo,
       fetch_google_doc_info drive doc_url = Except.ok res →
       ∃ doc_id : Str, extract_doc_id doc_url = some doc_id ∧ dSep <:+: doc_url) := by
  constructor
  · intro hni
    unfold fetch_google_doc_info
    rw [(extract_doc_id_eq_none_iff doc_url).mpr hni]
  · intro res h
    unfold fetch_google_doc_info at h
    cases hx : extract_doc_id doc_url with
    | none => rw [hx] at h; exact Except.noConfusion h
    | some doc_id =>
      refine ⟨doc_id, rfl, ?_⟩
      by_contra hc
      rw [(extract_doc_id_eq_none_iff doc_url).mpr hc] at hx
      exact Option.noConfusion hx

/-- Witness for C10 at a concrete url without "/d/". -/
theorem C10_extraction_before_guard_witness :
    ¬ dSep <:+: "https://example.com/a.txt".toList
  ∧ fetch_google_doc_info inert_drive "https://example.com/a.txt".toList
      = Except.error PyErr.indexError := by
  have hni : ¬ dSep <:+: "https://example.com/a.txt".toList := by decide
  exact ⟨hni, (C10_extraction_before_guard inert_drive _).1 hni⟩

/-- C8: a successful metadata fetch yields the remote name as title, the first
owner's display name (or "Unknown" when the owners key or the display name is
absent) as owner, and the remote modifiedTime (or "Unknown" when absent) as
modified_date. -/
theorem C8_metadata_extraction (m : FileMetadata) (info : DocInfo)
    (h : extract_doc_info m = some info) :
    info.title = m.name
  ∧ (m.owners = none → info.owner = unknownStr)
  ∧ (∀ os, m.owners = some (⟨none⟩ :: os) → info.owner = unknownStr)
  ∧ (∀ d os, m.owners = some (⟨some d⟩ :: os) → info.owner = d)
  ∧ (m.modifiedTime = none → info.modified_date = unknownStr)
  ∧ (∀ t, m.modifiedTime = some t → info.modified_date = t) := by
  unfold extract_doc_info at h
  cases hm : m.owners with
  | none =>
    rw [hm] at h
    have hinfo : info = ⟨m.name, unknownStr, m.modifiedTime.getD unknownStr⟩ :=
      (Option.some.inj h).symm
    subst hinfo
    refine ⟨rfl, fun _ => rfl, ?_, ?_, ?_, ?_⟩
    · intro os ho; exact Option.noConfusion ho
    · intro d os ho; exact Option.noConfusion ho
    · intro hmt; rw [hmt]; rfl
    · intro t ht; rw [ht]; rfl
  | some os =>
    cases os with
    | nil =>
      rw [hm] at h
      exact Option.noConfusion h
    | cons o rest =>
      rw [hm] at h
      have hinfo : info =
          ⟨m.name, o.displayName.getD unknownStr, m.modifiedTime.getD unknownStr⟩ :=
        (Option.some.inj h).symm
      subst hinfo
      refine ⟨rfl, ?_, ?_, ?_, ?_, ?_⟩
      · intro hnone; exact Option.noConfusion hnone
      · intro os2 ho
        have ho2 : o = ⟨none⟩ := (List.cons.inj (Option.some.inj ho)).1
        simp [ho2]
      · intro d os2 ho
        have ho2 : o = ⟨some d⟩ := (List.cons.inj (Option.some.inj ho)).1
        simp [ho2]
      · intro hmt; rw [hmt]; rfl
      · intro t ht; rw [ht]; rfl

/-- A concrete Drive metadata response used to witness C8. -/
def demo_metadata : FileMetadata :=
  { name := some "Paper".toList
    owners := some [⟨some "Alice".toList⟩]
    modifiedTime := some "2024-05-01T00:00:00Z".toList }

/-- The doc-info record fetch_google_doc_info builds from demo_metadata. -/
def demo_doc_info : DocInfo :=
  { title := some "Paper".toList
    owner := "Alice".toList
    modified_date := "2024-05-01T00:00:00Z".toList }

/-- Witness for C8 at a concrete metadata response with one named owner. -/
theorem C8_metadata_extraction_witness :
    extract_doc_info demo_metadata = some demo_doc_info
  ∧ demo_doc_info.title = demo_metadata.name
  ∧ demo_doc_info.owner = "Alice".toList := by
  have h : extract_doc_info demo_metadata = some demo_doc_info := by decide
  refine ⟨h, (C8_metadata_extraction demo_metadata demo_doc_info h).1, ?_⟩
  exact (C8_metadata_extraction demo_metadata demo_doc_info h).2.2.2.1
    "Alice".toList [] rfl

/-- Python's `needle in hay` agrees with the substring relation. -/
theorem containsSub_iff (needle hay : Str) (h : needle ≠ []) :
    containsSub needle hay = true ↔ needle <:+: hay := by
  unfold containsSub
  cases hsp : splitFirst needle hay with
  | none => simp [(splitFirst_eq_none_iff needle h hay).mp hsp]
  | some pq =>
    obtain ⟨p, q⟩ := pq
    have hin : needle <:+: hay :=
      ⟨p, q, (eq_append_of_splitFirst needle hay p q hsp).symm⟩
    simp [hin]

/-- One JSON item of an Instapaper bookmarks/list response; the "type" and
"url" keys may be absent, matching the `.get` accesses in the source. -/
structure RawItem where
  itemType : Option Str
  url : Option Str
  title : Str
  deriving DecidableEq

/-- The Google-Docs link marker checked by the bookmark filter. -/
def gdocSub : Str := "docs.google.com/document".toList

/-- The filter condition of the list comprehension in get_instapaper_bookmarks
(instapaper-gdocs.py lines 112-115, instapaper-gdoc-download.py lines 161-166):
`item.get("type") == "bookmark" and "docs.google.com/document" in
item.get("url", "")`. -/
def is_gdoc_bookmark (item : RawItem) : Bool :=
  item.itemType == some "bookmark".toList && containsSub gdocSub (item.url.getD [])

/-- The list comprehension itself: a filter over the response items in
response order. -/
def filter_gdoc_bookmarks (response_data : List RawItem) : List RawItem :=
  response_data.filter is_gdoc_bookmark

/-- C4: the adapter retains exactly the response entries whose type is
"bookmark" and whose url contains "docs.google.com/document", in response
order (the result is a sublist of the response). -/
theorem C4_bookmark_filter (response_data : List RawItem) :
    List.Sublist (filter_gdoc_bookmarks response_data) response_data
  ∧ ∀ item : RawItem,
      item ∈ filter_gdoc_bookmarks response_data ↔
        (item ∈ response_data ∧ item.itemType = some "bookmark".toList
          ∧ gdocSub <:+: item.url.getD []) := by
  refine ⟨List.filter_sublist _, ?_⟩
  intro item
  unfold filter_gdoc_bookmarks
  rw [List.mem_filter]
  constructor
  · rintro ⟨hmem, hp⟩
    rw [is_gdoc_bookmark, Bool.and_eq_true, beq_iff_eq] at hp
    exact ⟨hmem, hp.1, (containsSub_iff gdocSub _ (by decide)).mp hp.2⟩
  · rintro ⟨hmem, h1, h2⟩
    refine ⟨hmem, ?_⟩
    rw [is_gdoc_bookmark, Bool.and_eq_true, beq_iff_eq]
    exact ⟨h1, (containsSub_iff gdocSub _ (by decide)).mpr h2⟩

/-- One folder object of the Instapaper folders/list response, as read through
`folder.get("type")`, `folder.get("title")` and `folder.get("folder_id")`. -/
structure Folder where
  folderType : Option Str
  title : Option Str
  folder_id : Option Nat
  deriving DecidableEq

/-- The string "folder" compared against the "type" key. -/
def folderWord : Str := "folder".toList

/-- The loop of get_instapaper_folder_id (instapaper-gdocs.py lines 85-96,
identical in instapaper-gdoc-download.py lines 133-144): return the first
folder whose type is "folder" and whose title equals the requested name, else
None after the loop. -/
def get_instapaper_folder_id : List Folder → Str → Option Nat
  | [], _ => none
  | f :: fs, folder_name =>
    if f.folderType == some folderWord && f.title == some folder_name then
      f.folder_id
    else
      get_instapaper_folder_id fs folder_name

theorem folder_id_cons_pos (f : Folder) (fs : List Folder) (name : Str)
    (h1 : f.folderType = some folderWord) (h2 : f.title = some name) :
    get_instapaper_folder_id (f :: fs) name = f.folder_id := by
  simp [get_instapaper_folder_id, h1, h2]

theorem folder_id_cons_neg (f : Folder) (fs : List Folder) (name : Str)
    (h : ¬ (f.folderType = some folderWord ∧ f.title = some name)) :
    get_instapaper_folder_id (f :: fs) name = get_instapaper_folder_id fs name := by
  have hb : (f.folderType == some folderWord && f.title == some name) = false := by
    rw [Bool.eq_false_iff]
    intro hcon
    rw [Bool.and_eq_true, beq_iff_eq, beq_iff_eq] at hcon
    exact h hcon
  simp [get_instapaper_folder_id, hb]

theorem folder_id_of_no_match (name : Str) :
    ∀ folders : List Folder,
      (∀ f ∈ folders, ¬ (f.folderType = some folderWord ∧ f.title = some name)) →
      get_instapaper_folder_id folders name = none := by
  intro folders
  induction folders with
  | nil => intro _; rfl
  | cons f fs ih =>
    intro h
    rw [folder_id_cons_neg f fs name (h f (List.mem_cons_self f fs))]
    exact ih fun g hg => h g (List.mem_cons_of_mem f hg)

theorem folder_id_of_first_match (name : Str) :
    ∀ (pre : List Folder) (f : Folder) (post : List Folder),
      f.folderType = some folderWord → f.title = some name →
      (∀ g ∈ pre, ¬ (g.folderType = some folderWord ∧ g.title = some name)) →
      get_instapaper_folder_id (pre ++ f :: post) name = f.folder_id := by
  intro pre
  induction pre with
  | nil =>
    intro f post h1 h2 _
    exact folder_id_cons_pos f post name h1 h2
  | cons g pre ih =>
    intro f post h1 h2 hpre
    rw [List.cons_append,
      folder_id_cons_neg g (pre ++ f :: post) name (hpre g (List.mem_cons_self g pre))]
    exact ih f post h1 h2 fun g2 hg2 => hpre g2 (List.mem_cons_of_mem g hg2)

/-- C5: folder resolution returns the folder_id of the first folder in listing
order whose type is "folder" and whose title equals the requested name exactly,
and None when no such folder exists; later duplicates are ignored and no
partial match is ever used. -/
theorem C5_folder_resolution (folders : List Folder) (name : Str) :
    ((∀ f ∈ folders, ¬ (f.folderType = some folderWord ∧ f.title = some name)) →
        get_instapaper_folder_id folders name = none)
  ∧ (∀ (pre : List Folder) (f : Folder) (post : List Folder),
        folders = pre ++ f :: post →
        f.folderType = some folderWord → f.title = some name →
        (∀ g ∈ pre, ¬ (g.folderType = some folderWord ∧ g.title = some name)) →
        get_instapaper_folder_id folders name = f.folder_id) := by
  constructor
  · exact folder_id_of_no_match name folders
  · intro pre f post heq h1 h2 hpre
    rw [heq]
    exact folder_id_of_first_match name pre f post h1 h2 hpre

/-- A concrete folder listing used to witness C5: a substring-only title
match, a title match of the wrong type, the first genuine match, and a later
duplicate. -/
def demo_folders : List Folder :=
  [ ⟨some folderWord, some "Reading-List".toList, some 11⟩,
    ⟨some "bookmark".toList, some "Reading".toList, some 12⟩,
    ⟨some folderWord, some "Reading".toList, some 13⟩,
    ⟨some folderWord, some "Reading".toList, some 14⟩ ]

/-- Witness for C5: the first exact match wins and a missing name gives None. -/
theorem C5_folder_resolution_witness :
    get_instapaper_folder_id demo_folders "Reading".toList = some 13
  ∧ get_instapaper_folder_id demo_folders "Archive".toList = none := by
  constructor
  · exact (C5_folder_resolution demo_folders "Reading".toList).2
      [⟨some folderWord, some "Reading-List".toList, some 11⟩,
       ⟨some "bookmark".toList, some "Reading".toList, some 12⟩]
      ⟨some folderWord, some "Reading".toList, some 13⟩
      [⟨some folderWord, some "Reading".toList, some 14⟩]
      rfl rfl rfl (by decide)
  · exact (C5_folder_resolution demo_folders "Archive".toList).1 (by decide)

/-- Python's `x or y` where `x` is an optional string: None and the empty
string are falsy (instapaper-gdocs.py line 165). -/
def pyOrStr (x : Option Str) (alt : Str) : Str :=
  match x with
  | none => alt
  | some s => if s = [] then alt else s

/-- generate_unique_folder_name (instapaper-gdocs.py lines 143-146): the base
name, a hyphen, and the first four characters of a fresh uuid4 string, which
is passed in explicitly here since it is an external random input. -/
def generate_unique_folder_name (base_name uuid_str : Str) : Str :=
  base_name ++ '-' :: uuid_str.take 4

/-- The destination-folder name computed in main:
`args.target or generate_unique_folder_name(folder_name)`. -/
def new_folder_name (target : Option Str) (folder_name uuid_str : Str) : Str :=
  pyOrStr target (generate_unique_folder_name folder_name uuid_str)

/-- C9: an empty --target behaves exactly like an absent --target: the name is
synthesized as the source folder name, a hyphen and a 4-character suffix. -/
theorem C9_empty_target (folder_name uuid_str : Str) :
    new_folder_name (some []) folder_name uuid_str
        = new_folder_name none folder_name uuid_str
  ∧ new_folder_name (some []) folder_name uuid_str
        = folder_name ++ '-' :: uuid_str.take 4
  ∧ (4 ≤ uuid_str.length → (uuid_str.take 4).length = 4) := by
  refine ⟨rfl, rfl, ?_⟩
  intro h
  rw [List.length_take]
  omega

/-- Witness for C9 with a 36-character uuid4 string. -/
theorem C9_empty_target_witness :
    4 ≤ "1a2b3c4d-0000-4e5f-8888-123456789abc".toList.length
  ∧ new_folder_name (some []) "Reading".toList
        "1a2b3c4d-0000-4e5f-8888-123456789abc".toList
      = "Reading-1a2b".toList := by
  refine ⟨by decide, ?_⟩
  have h := (C9_empty_target "Reading".toList
    "1a2b3c4d-0000-4e5f-8888-123456789abc".toList).2.1
  exact h.trans (by decide)

/-- One entry of the docs_info list built in step 4 of reorganize main: the
doc-info dictionary with the bookmark url added (`doc_info["url"] =
bookmark["url"]`, line 189). -/
structure AggDoc where
  title : Option Str
  owner : Str
  modified_date : Str
  url : Str
  deriving DecidableEq

/-- Python f-string rendering of a value that may be None (None renders as the
four characters "None"). -/
def pyRenderOpt (x : Option Str) : Str :=
  match x with
  | none => "None".toList
  | some s => s

theorem pyRenderOpt_some (s : Str) : pyRenderOpt (some s) = s := rfl

/-- The url, title and description passed to save_instapaper_bookmark for one
doc in step 7 of reorganize main (instapaper-gdocs.py lines 201-205). -/
structure SaveAction where
  url : Str
  title : Str
  description : Str
  deriving DecidableEq

/-- Step 7 of reorganize main: for each doc of the sorted list, in order, the
bookmark-add request synthesized from it. -/
def save_actions (docs_info : List AggDoc) : List SaveAction :=
  docs_info.map fun doc =>
    { url := doc.url
      title := pyRenderOpt doc.title ++ " - ".toList ++ doc.owner ++ " - ".toList
          ++ doc.modified_date.take 10
      description := pyRenderOpt doc.title ++ " - ".toList ++ doc.owner
          ++ "<br>\n".toList ++ doc.modified_date.take 10 ++ "<br>\n<a href=\"".toList
          ++ doc.url ++ "\">".toList ++ doc.url ++ "</a><br>".toList }

/-- C7: every republished bookmark gets title
"doc title - owner - first ten chars of modified_date" and description
"doc title - owner<br>, newline, date<br>, newline, anchor to the url<br>". -/
theorem C7_republish_format (docs_info : List AggDoc) (i : Nat) (doc : AggDoc)
    (t : Str) (h : docs_info[i]? = some doc) (ht : doc.title = some t) :
    (save_actions docs_info)[i]? = some
      { url := doc.url
        title := t ++ " - ".toList ++ doc.owner ++ " - ".toList
            ++ doc.modified_date.take 10
        description := t ++ " - ".toList ++ doc.owner ++ "<br>\n".toList
            ++ doc.modified_date.take 10 ++ "<br>\n<a href=\"".toList
            ++ doc.url ++ "\">".toList ++ doc.url ++ "</a><br>".toList } := by
  unfold save_actions
  rw [List.getElem?_map, h, Option.map_some']
  rw [ht, pyRenderOpt_some]

/-- A concrete aggregated doc used to witness C7. -/
def demo_agg : AggDoc :=
  { title := some "Notes".toList
    owner := "Bob".toList
    modified_date := "2023-01-10T00:00:01Z".toList
    url := "https://docs.google.com/document/d/AAA/edit".toList }

/-- Witness for C7 at a concrete aggregated doc. -/
theorem C7_republish_format_witness :
    [demo_agg][0]? = some demo_agg
  ∧ demo_agg.title = some "Notes".toList
  ∧ (save_actions [demo_agg])[0]? = some
      { url := "https://docs.google.com/document/d/AAA/edit".toList
        title := "Notes - Bob - 2023-01-10".toList
        description := "Notes - Bob<br>\n2023-01-10<br>\n<a href=\"https://docs.google.com/document/d/AAA/edit\">https://docs.google.com/document/d/AAA/edit</a><br>".toList } := by
  refine ⟨rfl, rfl, ?_⟩
  have h := C7_republish_format [demo_agg] 0 demo_agg "Notes".toList rfl rfl
  exact h.trans (by decide)

/-- Python string comparison, character by character by code point: the
comparison used by `docs_info.sort(key=lambda x: x['modified_date'])`. -/
def strLe : Str → Str → Bool
  | [], _ => true
  | _ :: _, [] => false
  | a :: as, b :: bs => if a = b then strLe as bs else decide (a < b)

theorem strLe_cons (x y : Char) (xs ys : Str) :
    strLe (x :: xs) (y :: ys) = if x = y then strLe xs ys else decide (x < y) := rfl

theorem strLe_refl : ∀ s : Str, strLe s s = true := by
  intro s
  induction s with
  | nil => rfl
  | cons c cs ih => rw [strLe_cons, if_pos rfl]; exact ih

theorem strLe_total : ∀ a b : Str, (strLe a b || strLe b a) = true := by
  intro a
  induction a with
  | nil => intro b; rfl
  | cons c cs ih =>
    intro b
    cases b with
    | nil => rfl
    | cons d ds =>
      by_cases hcd : c = d
      · subst hcd
        rw [strLe_cons, strLe_cons, if_pos rfl, if_pos rfl]
        exact ih ds
      · have hdc : ¬ d = c := fun h => hcd h.symm
        rw [strLe_cons, strLe_cons, if_neg hcd, if_neg hdc]
        rcases lt_or_gt_of_ne hcd with h | h
        · simp [h]
        · simp [h]

theorem strLe_trans :
    ∀ a b c : Str, strLe a b = true → strLe b c = true → strLe a c = true := by
  intro a
  induction a with
  | nil => intro b c _ _; rfl
  | cons x xs ih =>
    intro b c hab hbc
    cases b with
    | nil => exact absurd hab (by rw [show strLe (x :: xs) [] = false from rfl]; simp)
    | cons y ys =>
      cases c with
      | nil => exact absurd hbc (by rw [show strLe (y :: ys) [] = false from rfl]; simp)
      | cons z zs =>
        by_cases hxy : x = y
        · subst hxy
          rw [strLe_cons, if_pos rfl] at hab
          by_cases hyz : x = z
          · subst hyz
            rw [strLe_cons, if_pos rfl] at hbc ⊢
            exact ih ys zs hab hbc
          · rw [strLe_cons, if_neg hyz] at hbc ⊢
            exact hbc
        · rw [strLe_cons, if_neg hxy] at hab
          by_cases hyz : y = z
          · subst hyz
            rw [strLe_cons, if_neg hxy]
            exact hab
          · rw [strLe_cons, if_neg hyz] at hbc
            have hlt : x < z := lt_trans (of_decide_eq_true hab) (of_decide_eq_true hbc)
            rw [strLe_cons, if_neg (ne_of_lt hlt)]
            exact decide_eq_true hlt

/-- The sort key comparison of step 5: compare two docs by their
modified_date strings. -/
def docLe (a b : AggDoc) : Bool := strLe a.modified_date b.modified_date

/-- Step 5 of reorganize main, `docs_info.sort(key=lambda x:
x['modified_date'])`: Python's sort is a stable sort by the key, embedded as a
stable merge sort under `docLe` (any two stable sorts for the same total
preorder agree pointwise). -/
def sort_docs_info (docs_info : List AggDoc) : List AggDoc :=
  docs_info.mergeSort docLe

theorem docLe_trans (a b c : AggDoc) (hab : docLe a b = true) (hbc : docLe b c = true) :
    docLe a c = true :=
  strLe_trans _ _ _ hab hbc

theorem docLe_total (a b : AggDoc) : (docLe a b || docLe b a) = true :=
  strLe_total _ _

/-- C1: the sorted docs list is ascending in the modified_date string order,
it is a permutation of the input, and entries with any fixed modified_date
keep their original encounter order (stability, stated as preservation of the
per-key filtered sublists). -/
theorem C1_sort_stable_monotonic (docs_info : List AggDoc) :
    List.Pairwise (fun a b => strLe a.modified_date b.modified_date = true)
      (sort_docs_info docs_info)
  ∧ (∀ k : Str,
      (sort_docs_info docs_info).filter (fun d => d.modified_date == k)
        = docs_info.filter (fun d => d.modified_date == k))
  ∧ List.Perm (sort_docs_info docs_info) docs_info := by
  refine ⟨?_, ?_, List.mergeSort_perm docs_info docLe⟩
  · exact List.sorted_mergeSort docLe_trans docLe_total docs_info
  · intro k
    set p : AggDoc → Bool := fun d => d.modified_date == k with hp
    have hpw : List.Pairwise (fun a b => docLe a b = true) (docs_info.filter p) := by
      apply List.pairwise_of_forall_mem_list
      intro a ha b hb
      have hak : a.modified_date = k := by
        have := (List.mem_filter.mp ha).2
        rw [hp] at this
        exact beq_iff_eq.mp this
      have hbk : b.modified_date = k := by
        have := (List.mem_filter.mp hb).2
        rw [hp] at this
        exact beq_iff_eq.mp this
      show docLe a b = true
      unfold docLe
      rw [hak, hbk]
      exact strLe_refl k
    have hsub2 : List.Sublist (docs_info.filter p) (sort_docs_info docs_info) :=
      List.sublist_mergeSort docLe_trans docLe_total hpw (List.filter_sublist _)
    have hid : (docs_info.filter p).filter p = docs_info.filter p :=
      List.filter_eq_self.mpr fun a ha => (List.mem_filter.mp ha).2
    have hsub3 : List.Sublist (docs_info.filter p)
        ((sort_docs_info docs_info).filter p) := hid ▸ hsub2.filter p
    have hlen : ((sort_docs_info docs_info).filter p).length
        = (docs_info.filter p).length :=
      ((List.mergeSort_perm docs_info docLe).filter p).length_eq
    exact (hsub3.eq_of_length hlen.symm).symm

/-- An Instapaper bookmark entry as consumed by the main loops: the filtered
entries always carry a url and a title. -/
structure Bookmark where
  url : Str
  title : Str
  deriving DecidableEq

/-- Step 4 of reorganize main (instapaper-gdocs.py lines 185-190): for each
bookmark, fetch the doc info, immediately print a line that subscripts the
result (`doc_info["owner"]`), attach the url and append.  When the fetch
returned None, the subscript raises an uncaught TypeError; when the fetch
itself raised (url without "/d/"), that exception propagates. -/
def collect_docs_info (drive : DriveEnv) : List Bookmark → Except PyErr (List AggDoc)
  | [] => Except.ok []
  | b :: bs =>
    match fetch_google_doc_info drive b.url with
    | Except.error e => Except.error e
    | Except.ok none => Except.error PyErr.typeError
    | Except.ok (some info) =>
      match collect_docs_info drive bs with
      | Except.error e => Except.error e
      | Except.ok rest =>
        Except.ok ({ title := info.title, owner := info.owner,
                     modified_date := info.modified_date, url := b.url } :: rest)

/-- A Drive service that knows docs AAA and CCC and fails on everything else
(for example BBB). -/
def demo_drive : DriveEnv := fun doc_id =>
  if doc_id = "AAA".toList then
    Except.ok ⟨some "Doc A".toList, some [⟨some "Ann".toList⟩],
      some "2023-01-10T00:00:00Z".toList⟩
  else if doc_id = "CCC".toList then
    Except.ok ⟨some "Doc C".toList, some [⟨some "Cal".toList⟩],
      some "2023-05-01T00:00:00Z".toList⟩
  else
    Except.error "HttpError 404".toList

/-- Three qualifying bookmarks; the middle one points at the unknown doc BBB. -/
def demo_bookmarks : List Bookmark :=
  [ ⟨"https://docs.google.com/document/d/AAA/edit".toList, "A".toList⟩,
    ⟨"https://docs.google.com/document/d/BBB/edit".toList, "B".toList⟩,
    ⟨"https://docs.google.com/document/d/CCC/edit".toList, "C".toList⟩ ]

/-- C2 is refuted by the code: when the metadata fetch fails for the middle
bookmark (the fetch returns the None sentinel), the aggregation loop raises an
uncaught TypeError at `doc_info["owner"]` and the whole run aborts, so the
third bookmark is never processed; had the failing bookmark been absent, the
same loop would have processed both of the others. -/
theorem C2_metadata_failure_aborts_run :
    fetch_google_doc_info demo_drive
        "https://docs.google.com/document/d/BBB/edit".toList = Except.ok none
  ∧ collect_docs_info demo_drive demo_bookmarks = Except.error PyErr.typeError
  ∧ collect_docs_info demo_drive
      [ ⟨"https://docs.google.com/document/d/AAA/edit".toList, "A".toList⟩,
        ⟨"https://docs.google.com/document/d/CCC/edit".toList, "C".toList⟩ ]
      = Except.ok
      [ ⟨some "Doc A".toList, "Ann".toList, "2023-01-10T00:00:00Z".toList,
          "https://docs.google.com/document/d/AAA/edit".toList⟩,
        ⟨some "Doc C".toList, "Cal".toList, "2023-05-01T00:00:00Z".toList,
          "https://docs.google.com/document/d/CCC/edit".toList⟩ ] := by
  exact ⟨rfl, rfl, rfl⟩

/-- The Drive export call of download_gdoc: export a doc id, either succeeding
or raising. -/
abbrev ExportEnv := Str → Except Str Unit

/-- os.path.join for two POSIX path components. -/
def ospath_join (a b : Str) : Str :=
  if b.head? = some '/' then b
  else if a = [] then b
  else if a.getLast? = some '/' then a ++ b
  else a ++ '/' :: b

/-- The ".docx" filename suffix. -/
def dotDocx : Str := ".docx".toList

/-- download_gdoc (instapaper-gdoc-download.py lines 73-104): the whole body,
including the id extraction, runs inside try/except, so every failure is
caught, reported and turned into None; success returns the output path
`os.path.join(save_folder, title + ".docx")`. -/
def download_gdoc (exporter : ExportEnv) (doc_url title save_folder : Str) :
    Option Str :=
  match extract_doc_id doc_url with
  | none => none
  | some doc_id =>
    match exporter doc_id with
    | Except.error _ => none
    | Except.ok _ => some (ospath_join save_folder (title ++ dotDocx))

/-- The download-mode main loop (instapaper-gdoc-download.py lines 212-215):
one download_gdoc call per bookmark, in order, never propagating a failure. -/
def download_all (exporter : ExportEnv) (save_folder : Str)
    (bookmarks : List Bookmark) : List (Option Str) :=
  bookmarks.map fun b => download_gdoc exporter b.url b.title save_folder

/-- C6: in download mode the run always reaches every bookmark (one result per
bookmark), a failed export only turns its own result into None, and every
bookmark whose own export succeeds still gets its file path, independent of
failures elsewhere in the same run. -/
theorem C6_export_failure_isolated (exporter : ExportEnv) (save_folder : Str)
    (bookmarks : List Bookmark) :
    (download_all exporter save_folder bookmarks).length = bookmarks.length
  ∧ (∀ (i : Nat) (b : Bookmark), bookmarks[i]? = some b →
      (download_all exporter save_folder bookmarks)[i]?
        = some (download_gdoc exporter b.url b.title save_folder))
  ∧ (∀ (i : Nat) (b : Bookmark) (doc_id : Str), bookmarks[i]? = some b →
      extract_doc_id b.url = some doc_id →
      exporter doc_id = Except.ok () →
      (download_all exporter save_folder bookmarks)[i]?
        = some (some (ospath_join save_folder (b.title ++ dotDocx)))) := by
  refine ⟨by simp [download_all], ?_, ?_⟩
  · intro i b hb
    unfold download_all
    rw [List.getElem?_map, hb, Option.map_some']
  · intro i b doc_id hb hex hok
    unfold download_all
    rw [List.getElem?_map, hb, Option.map_some']
    show some (download_gdoc exporter b.url b.title save_folder) = _
    congr 1
    unfold download_gdoc
    split
    · rename_i heq
      rw [hex] at heq
      exact Option.noConfusion heq
    · rename_i doc_id2 heq
      rw [hex] at heq
      obtain rfl : doc_id = doc_id2 := Option.some.inj heq
      rw [hok]

/-- An export service that succeeds on AAA and fails on everything else. -/
def demo_exporter : ExportEnv := fun doc_id =>
  if doc_id = "AAA".toList then Except.ok ()
  else Except.error "export failed".toList

/-- Two qualifying bookmarks for the download run; the second one fails. -/
def demo_dl_bookmarks : List Bookmark :=
  [ ⟨"https://docs.google.com/document/d/AAA/edit".toList, "My Notes".toList⟩,
    ⟨"https://docs.google.com/document/d/BBB/edit".toList, "Other".toList⟩ ]

/-- Witness for C6: with one failing export among two bookmarks, the run still
produces a result per bookmark and the successful one gets its file. -/
theorem C6_export_failure_isolated_witness :
    demo_dl_bookmarks[0]?
        = some ⟨"https://docs.google.com/document/d/AAA/edit".toList, "My Notes".toList⟩
  ∧ extract_doc_id "https://docs.google.com/document/d/AAA/edit".toList
        = some "AAA".toList
  ∧ demo_exporter "AAA".toList = Except.ok ()
  ∧ (download_all demo_exporter "/tmp/docs".toList demo_dl_bookmarks)[0]?
        = some (some "/tmp/docs/My Notes.docx".toList)
  ∧ (download_all demo_exporter "/tmp/docs".toList demo_dl_bookmarks)[1]?
        = some none
  ∧ (download_all demo_exporter "/tmp/docs".toList demo_dl_bookmarks).length = 2 := by
  refine ⟨rfl, rfl, rfl, ?_, ?_, ?_⟩
  · have h := (C6_export_failure_isolated demo_exporter "/tmp/docs".toList
      demo_dl_bookmarks).2.2 0
      ⟨"https://docs.google.com/document/d/AAA/edit".toList, "My Notes".toList⟩
      "AAA".toList rfl rfl rfl
    exact h.trans (by decide)
  · have h := (C6_export_failure_isolated demo_exporter "/tmp/docs".toList
      demo_dl_bookmarks).2.1 1
      ⟨"https://docs.google.com/document/d/BBB/edit".toList, "Other".toList⟩ rfl
    exact h.trans (by decide)
  · exact (C6_export_failure_isolated demo_exporter "/tmp/docs".toList
      demo_dl_bookmarks).1

end InstapaperGDocs
